import Mathlib

/-
Verification of the OpenFamilySafe access-control core and proxy gateway.

The definitions below are a shallow embedding of the repository source:
  - worker.js                 (Cloudflare proxy gateway)
  - services/userService.ts   (approval state machine, access policy)
  - services/familyService.ts (family aggregate, invite codes)
  - types.ts                  (data model)

The Firestore document store is modelled as association lists keyed by
document id.  JavaScript falsy tests on optional strings (null / empty
string) are modelled by strOptFalsy.  Timestamps (Date.now()) and the
randomly drawn invite code are passed in as explicit parameters.
-/

namespace OpenFamilySafe

/-- Enumeration UserRole from types.ts. -/
inductive UserRole where
  | SUPER_ADMIN
  | PARENT
  | CHILD
  | PENDING_PARENT
  | PENDING_CHILD
  deriving DecidableEq, Repr

/-- Enumeration ApprovalStatus from types.ts. -/
inductive ApprovalStatus where
  | PENDING
  | APPROVED
  | REJECTED
  | SUSPENDED
  deriving DecidableEq, Repr

/-- Enumeration FilterLevel from types.ts. -/
inductive FilterLevel where
  | STRICT
  | MODERATE
  | NONE
  deriving DecidableEq, Repr

/-- The settings object nested in the Family interface of types.ts. -/
structure FamilySettings where
  filterLevel : FilterLevel
  deriving DecidableEq, Repr

/-- Family interface from types.ts.  The settings field is optional there. -/
structure Family where
  id : String
  parentUid : String
  childrenUids : List String
  createdAt : Nat
  settings : Option FamilySettings
  deriving DecidableEq, Repr

/-- UserProfile interface from types.ts; optional fields become Option. -/
structure UserProfile where
  uid : String
  email : String
  displayName : Option String := none
  role : UserRole
  filterLevel : FilterLevel
  parentEmail : Option String := none
  approvalStatus : ApprovalStatus
  parentUid : Option String := none
  familyId : Option String := none
  childrenUids : Option (List String) := none
  approvedBy : Option String := none
  approvedAt : Option Nat := none
  rejectedReason : Option String := none
  createdAt : Nat
  updatedAt : Option Nat := none
  deriving DecidableEq, Repr

/-- Document stored in the invites collection by familyService.ts. -/
structure Invite where
  code : String
  familyId : String
  createdAt : Nat
  expiresAt : Nat
  deriving DecidableEq, Repr

/-- JavaScript falsy test for a nullable string: null and the empty string
are falsy, every other string is truthy. -/
def strOptFalsy : Option String → Bool
  | none => true
  | some s => s = ""

/-- Model of String.prototype.startsWith, via character lists so that the
kernel can evaluate it on closed inputs. -/
def strStartsWith (s pre : String) : Bool :=
  pre.toList.isPrefixOf s.toList

/-- Drop the first n characters of a string. -/
def strDrop (s : String) (n : Nat) : String :=
  String.mk (s.toList.drop n)

/-- Accumulator pass for splitOnChar; acc holds the characters of the
current piece in reverse. -/
def splitOnCharAux (c : Char) : List Char → List Char → List String
  | acc, [] => [String.mk acc.reverse]
  | acc, x :: rest =>
    if x = c then String.mk acc.reverse :: splitOnCharAux c [] rest
    else splitOnCharAux c (x :: acc) rest

/-- Split a string on a single-character separator, keeping empty pieces,
like String.prototype.split with a one-character separator. -/
def splitOnChar (c : Char) (s : String) : List String :=
  splitOnCharAux c [] s.toList

-- ==========================================================
-- worker.js : the proxy gateway
-- ==========================================================

/-- The incoming request as seen by worker.js: its method, the value of
the url search parameter of the request URL (none when absent), and the
Authorization header (none when absent). -/
structure WorkerRequest where
  method : String
  urlParam : Option String
  authHeader : Option String
  deriving DecidableEq, Repr

/-- An HTTP response assembled by worker.js.  A JavaScript
Response(null, init) has a null body and default status 200. -/
structure WorkerResponse where
  status : Nat
  body : Option String
  headers : List (String × String)
  deriving DecidableEq, Repr

/-- The corsHeaders object of worker.js, verbatim. -/
def corsHeaders : List (String × String) :=
  [ ("Access-Control-Allow-Origin", "*"),
    ("Access-Control-Allow-Methods", "GET, HEAD, POST, OPTIONS"),
    ("Access-Control-Allow-Headers", "Content-Type, Authorization") ]

/-- The OPTIONS short-circuit response of worker.js: Response(null) with
the CORS headers, hence default status 200 and a null body. -/
def corsOnlyResponse : WorkerResponse :=
  { status := 200, body := none, headers := corsHeaders }

/-- The 400 response for a falsy url search parameter. -/
def missingUrlResponse : WorkerResponse :=
  { status := 400, body := some "Missing \x27url\x27 query parameter.", headers := corsHeaders }

/-- The 401 response for a falsy Authorization header. -/
def missingAuthResponse : WorkerResponse :=
  { status := 401, body := some "Unauthorized: Missing Authorization header.", headers := corsHeaders }

/-- Outcome of the validation prefix of the fetch handler in worker.js:
either an early response, or the handler reaches the try block and issues
the outbound fetch of the target URL. -/
inductive GateOutcome where
  | respond (r : WorkerResponse)
  | fetchTarget (targetUrl : String) (authHeader : String)
  deriving DecidableEq, Repr

/-- The request-validation prefix of the fetch handler in worker.js.
Mirrors the source line by line: OPTIONS short-circuits with the CORS
headers and a null body; a falsy url search parameter yields 400; a falsy
Authorization header yields 401; otherwise the handler proceeds to the
outbound fetch.  The source contains no further token check: the token
verification sketch at worker.js lines 54 to 57 is commented out. -/
def workerGate (req : WorkerRequest) : GateOutcome :=
  if req.method = "OPTIONS" then
    .respond corsOnlyResponse
  else if strOptFalsy req.urlParam then
    .respond missingUrlResponse
  else if strOptFalsy req.authHeader then
    .respond missingAuthResponse
  else
    .fetchTarget (req.urlParam.getD "") (req.authHeader.getD "")

-- ==========================================================
-- worker.js : AttributeRewriter and a model of the URL constructor
-- ==========================================================

/-- Characters allowed after the first character of a URL scheme. -/
def isSchemeChar (c : Char) : Bool :=
  c.isAlphanum || c = '+' || c = '-' || c = '.'

/-- Tail scan for hasURLScheme: scheme characters followed by a colon. -/
def schemeTail : List Char → Bool
  | [] => false
  | c :: rest => if c = ':' then true else isSchemeChar c && schemeTail rest

/-- Whether a string begins with a URL scheme (letter, then scheme
characters, then a colon).  Such inputs are absolute URLs for the URL
constructor and are returned as given by the model. -/
def hasURLScheme (s : String) : Bool :=
  match s.toList with
  | [] => false
  | c :: rest => c.isAlpha && schemeTail rest

/-- A parsed http or https URL: scheme, host, and a path starting with
a slash. -/
structure ParsedURL where
  scheme : String
  host : String
  path : String
  deriving DecidableEq, Repr

/-- Split the part after the scheme into host and path. -/
def parseHostPath (scheme rest : String) : Option ParsedURL :=
  match splitOnChar '/' rest with
  | [] => none
  | host :: pathSegs =>
    if host = "" then none
    else some { scheme := scheme, host := host,
                path := "/" ++ String.intercalate "/" pathSegs }

/-- Parse an absolute http or https URL into scheme, host and path.
Model of the WHATWG URL parser restricted to the http family without
userinfo, port, query or fragment components. -/
def parseHttpURL (s : String) : Option ParsedURL :=
  if strStartsWith s "https://" then parseHostPath "https" (strDrop s 8)
  else if strStartsWith s "http://" then parseHostPath "http" (strDrop s 7)
  else none

/-- Dot-segment removal over the slash-separated segments of a path; the
accumulator holds already-emitted segments in reverse order. -/
def rdsAux : List String → List String → List String
  | acc, [] => acc.reverse
  | acc, seg :: rest =>
    if seg = "." then
      if rest = [] then acc.reverse ++ [""] else rdsAux acc rest
    else if seg = ".." then
      if rest = [] then (acc.drop 1).reverse ++ [""] else rdsAux (acc.drop 1) rest
    else rdsAux (seg :: acc) rest

/-- Remove dot segments from a path that starts with a slash. -/
def removeDotSegments (p : String) : String :=
  "/" ++ String.intercalate "/" (rdsAux [] (splitOnChar '/' (strDrop p 1)))

/-- The directory of a path starting with a slash: everything up to and
including the last slash. -/
def directoryOf (path : String) : String :=
  String.intercalate "/" ((splitOnChar '/' path).dropLast) ++ "/"

/-- Model of the JavaScript expression new URL(input, base).href used by
AttributeRewriter in worker.js.  Restricted to http-family base URLs
without query or fragment handling; none models a thrown TypeError. -/
def resolveURL (input base : String) : Option String :=
  if hasURLScheme input then
    some input
  else
    match parseHttpURL base with
    | none => none
    | some b =>
      if strStartsWith input "//" then
        some (b.scheme ++ ":" ++ input)
      else if strStartsWith input "/" then
        some (b.scheme ++ "://" ++ b.host ++ removeDotSegments input)
      else if input = "" then
        some (b.scheme ++ "://" ++ b.host ++ b.path)
      else
        some (b.scheme ++ "://" ++ b.host ++
              removeDotSegments (directoryOf b.path ++ input))

/-- The element/attribute pairs registered on the HTMLRewriter in
worker.js. -/
def rewriterRegistrations : List (String × String) :=
  [("a", "href"), ("img", "src"), ("link", "href"), ("script", "src")]

/-- The body of AttributeRewriter.element for a present, truthy attribute
value: values starting with http or with two slashes are left alone;
otherwise the value is resolved against the target URL, and left alone
when resolution throws. -/
def rewriteAttributeValue (attrValue baseHref : String) : String :=
  if strStartsWith attrValue "http" || strStartsWith attrValue "//" then attrValue
  else
    match resolveURL attrValue baseHref with
    | some newUrl => newUrl
    | none => attrValue

/-- AttributeRewriter.element on the raw getAttribute result: a missing or
empty (falsy) attribute is not rewritten at all. -/
def elementAttributeAfterRewrite (attrValue : Option String) (baseHref : String) :
    Option String :=
  match attrValue with
  | none => none
  | some a => if a = "" then some a else some (rewriteAttributeValue a baseHref)

-- ==========================================================
-- The Firestore document store, modelled as association lists
-- ==========================================================

/-- The slice of Firestore state the core touches: the users, families and
invites collections, plus a counter driving the auto-generated ids that
doc(familiesCollection) draws. -/
structure Firestore where
  users : List (String × UserProfile)
  families : List (String × Family)
  invites : List Invite
  nextDocId : Nat
  deriving DecidableEq, Repr

/-- Fetch the document stored under a key (getDoc on a doc reference). -/
def lookupDoc (key : String) : List (String × α) → Option α
  | [] => none
  | (k, v) :: rest => if k = key then some v else lookupDoc key rest

/-- setDoc: overwrite the document under the key, creating it if absent. -/
def setDocIn (key : String) (value : α) : List (String × α) → List (String × α)
  | [] => [(key, value)]
  | (k, v) :: rest =>
    if k = key then (key, value) :: rest else (k, v) :: setDocIn key value rest

/-- Apply a field update to the document under the key; no-op if absent.
Used for updates that follow an existence check in the source. -/
def updateEntry (key : String) (f : α → α) : List (String × α) → List (String × α)
  | [] => []
  | (k, v) :: rest =>
    if k = key then (k, f v) :: updateEntry key f rest
    else (k, v) :: updateEntry key f rest

/-- updateDoc without a prior existence check: Firestore rejects an update
of a missing document, which the model surfaces as an error. -/
def updateDocE (key : String) (f : α → α) (l : List (String × α)) :
    Except String (List (String × α)) :=
  match lookupDoc key l with
  | none => .error "No document to update"
  | some _ => .ok (updateEntry key f l)

/-- The auto-generated id doc(familiesCollection) yields in this model. -/
def freshFamilyDocId (st : Firestore) : String :=
  "fam" ++ toString st.nextDocId

-- ==========================================================
-- services/userService.ts
-- ==========================================================

/-- getUserProfile from userService.ts. -/
def getUserProfile (uid : String) (st : Firestore) : Option UserProfile :=
  lookupDoc uid st.users

/-- isUserApproved from userService.ts. -/
def isUserApproved (profile : UserProfile) : Bool :=
  profile.approvalStatus == .APPROVED

/-- canAccessProxy from userService.ts, verbatim: not APPROVED returns
false, otherwise membership of the role in the listed three roles. -/
def canAccessProxy (profile : UserProfile) : Bool :=
  if profile.approvalStatus != .APPROVED then false
  else [UserRole.SUPER_ADMIN, UserRole.PARENT, UserRole.CHILD].contains profile.role

/-- The field update applied to the parent profile inside the
approveParentRequest transaction. -/
def approveParentUpd (adminUid familyId : String) (now : Nat) (p : UserProfile) :
    UserProfile :=
  { p with role := .PARENT, approvalStatus := .APPROVED,
           familyId := some familyId, approvedBy := some adminUid,
           approvedAt := some now, updatedAt := some now }

/-- approveParentRequest from userService.ts.  The runTransaction body is
modelled as a pure step: a thrown error aborts the transaction with no
state change (the caller keeps the prior Firestore state), success applies
both buffered writes at once.  The settings line of the source reads
parentData.filterLevel || FilterLevel.MODERATE; as filterLevel is a
required enum field whose values are non-empty strings, the fallback is
unreachable for a well-typed profile and the model copies the field. -/
def approveParentRequest (adminUid parentUid : String) (now : Nat)
    (st : Firestore) : Except String Firestore :=
  match lookupDoc parentUid st.users with
  | none => .error "Parent user not found"
  | some parentData =>
    let newFamilyId := freshFamilyDocId st
    let newFamily : Family :=
      { id := newFamilyId, parentUid := parentUid, childrenUids := [],
        createdAt := now,
        settings := some { filterLevel := parentData.filterLevel } }
    .ok { st with
          families := setDocIn newFamilyId newFamily st.families,
          users := updateEntry parentUid (approveParentUpd adminUid newFamilyId now) st.users,
          nextDocId := st.nextDocId + 1 }

/-- The field update applied to the child profile inside the
approveChildRequest transaction. -/
def approveChildUpd (parentUid fid : String) (now : Nat) (c : UserProfile) :
    UserProfile :=
  { c with role := .CHILD, approvalStatus := .APPROVED,
           parentUid := some parentUid, familyId := some fid,
           approvedBy := some parentUid, approvedAt := some now,
           updatedAt := some now }

/-- The field update writing a new childrenUids list to a parent profile. -/
def setParentChildrenUpd (newList : List String) (now : Nat) (p : UserProfile) :
    UserProfile :=
  { p with childrenUids := some newList, updatedAt := some now }

/-- The field update writing a new childrenUids list to a family document. -/
def setFamilyChildrenUpd (newList : List String) (f : Family) : Family :=
  { f with childrenUids := newList }

/-- approveChildRequest from userService.ts.  All three reads happen
before any write, exactly as in the transaction; the parent and family
childrenUids lists are extended only when childUid is not already a
member (the includes checks of the source). -/
def approveChildRequest (parentUid childUid : String) (now : Nat)
    (st : Firestore) : Except String Firestore :=
  match lookupDoc parentUid st.users with
  | none => .error "Parent not found"
  | some parentData =>
    if strOptFalsy parentData.familyId then
      .error "Parent does not have a valid Family ID"
    else
      let fid := parentData.familyId.getD ""
      match lookupDoc childUid st.users with
      | none => .error "Child not found"
      | some _childData =>
        match lookupDoc fid st.families with
        | none => .error "Family not found"
        | some familyData =>
          let usersAfterChild :=
            updateEntry childUid (approveChildUpd parentUid fid now) st.users
          let updatedParentChildren := parentData.childrenUids.getD []
          let usersAfterParent :=
            if childUid ∈ updatedParentChildren then usersAfterChild
            else updateEntry parentUid
              (setParentChildrenUpd (updatedParentChildren ++ [childUid]) now)
              usersAfterChild
          let familiesAfter :=
            if childUid ∈ familyData.childrenUids then st.families
            else updateEntry fid
              (setFamilyChildrenUpd (familyData.childrenUids ++ [childUid]))
              st.families
          .ok { st with users := usersAfterParent, families := familiesAfter }

-- ==========================================================
-- services/familyService.ts
-- ==========================================================

/-- getFamily from familyService.ts. -/
def getFamily (familyId : String) (st : Firestore) : Option Family :=
  lookupDoc familyId st.families

/-- The field update clearing the family association on a removed child:
the source explicitly writes empty-string sentinels, not deleted fields. -/
def unlinkChildUpd (now : Nat) (c : UserProfile) : UserProfile :=
  { c with familyId := some "", parentUid := some "", updatedAt := some now }

/-- The arrayRemove update on the removed childUid in a parent profile;
arrayRemove on a missing field leaves an empty array. -/
def parentArrayRemoveUpd (childUid : String) (now : Nat) (p : UserProfile) :
    UserProfile :=
  { p with childrenUids := some ((p.childrenUids.getD []).filter (fun u => u != childUid)),
           updatedAt := some now }

/-- The arrayRemove update on a family document. -/
def familyArrayRemoveUpd (childUid : String) (f : Family) : Family :=
  { f with childrenUids := f.childrenUids.filter (fun u => u != childUid) }

/-- removeChildFromFamily from familyService.ts: three sequential
non-transactional updates; a missing family fails fast, and either profile
update fails when the profile document is absent (updateDoc rejects).
On a reported error the partially-written intermediate store is not
modelled, only the success path is. -/
def removeChildFromFamily (familyId childUid : String) (now : Nat)
    (st : Firestore) : Except String Firestore :=
  match getFamily familyId st with
  | none => .error "Family not found"
  | some family =>
    let families₁ := updateEntry familyId (familyArrayRemoveUpd childUid) st.families
    match updateDocE childUid (unlinkChildUpd now) st.users with
    | .error e => .error e
    | .ok users₁ =>
      match updateDocE family.parentUid (parentArrayRemoveUpd childUid now) users₁ with
      | .error e => .error e
      | .ok users₂ => .ok { st with families := families₁, users := users₂ }

/-- getFamilyChildren from familyService.ts: query the users collection
for documents whose familyId matches and whose role is CHILD. -/
def getFamilyChildren (familyId : String) (st : Firestore) : List UserProfile :=
  ((st.users.filter (fun kv => kv.2.familyId == some familyId && kv.2.role == UserRole.CHILD)).map
    (fun kv => kv.2))

/-- userBelongsToFamily from familyService.ts. -/
def userBelongsToFamily (userUid familyId : String) (st : Firestore) : Bool :=
  match getUserProfile userUid st with
  | none => false
  | some user => user.familyId == some familyId

/-- getFamilyFilterLevel from familyService.ts: the family must exist and
carry a settings object, otherwise MODERATE. -/
def getFamilyFilterLevel (familyId : String) (st : Firestore) : FilterLevel :=
  match getFamily familyId st with
  | some family =>
    match family.settings with
    | some settings => settings.filterLevel
    | none => .MODERATE
  | none => .MODERATE

/-- The 48 hour invite lifetime of generateFamilyInviteCode, in
milliseconds. -/
def inviteLifetimeMillis : Nat := 48 * 60 * 60 * 1000

/-- generateFamilyInviteCode from familyService.ts.  The six-character
random draw is environment input and enters the model as the code
parameter; the function stores the invite with a 48 hour expiry and
returns the code. -/
def generateFamilyInviteCode (familyId code : String) (now : Nat)
    (st : Firestore) : String × Firestore :=
  (code,
   { st with invites := st.invites ++
       [{ code := code, familyId := familyId, createdAt := now,
          expiresAt := now + inviteLifetimeMillis }] })

/-- validateFamilyInviteCode from familyService.ts: query the invites
collection for the code, take the first match, treat it as expired when
its expiresAt field is truthy and strictly below now, otherwise resolve
the family. -/
def validateFamilyInviteCode (code : String) (now : Nat) (st : Firestore) :
    Option Family :=
  match st.invites.filter (fun i => i.code == code) with
  | [] => none
  | inviteData :: _ =>
    if inviteData.expiresAt ≠ 0 ∧ now > inviteData.expiresAt then none
    else getFamily inviteData.familyId st

-- ==========================================================
-- Association-list lemmas shared by the theorems below
-- ==========================================================

theorem lookupDoc_setDocIn_self (key : String) (v : α) (l : List (String × α)) :
    lookupDoc key (setDocIn key v l) = some v := by
  induction l with
  | nil => simp [setDocIn, lookupDoc]
  | cons head rest ih =>
    obtain ⟨k, w⟩ := head
    by_cases h : k = key <;> simp [setDocIn, lookupDoc, h, ih]

theorem lookupDoc_updateEntry_self (key : String) (f : α → α) (l : List (String × α)) :
    lookupDoc key (updateEntry key f l) = (lookupDoc key l).map f := by
  induction l with
  | nil => simp [updateEntry, lookupDoc]
  | cons head rest ih =>
    obtain ⟨k, w⟩ := head
    by_cases h : k = key <;> simp [updateEntry, lookupDoc, h, ih]

theorem lookupDoc_updateEntry_ne (key other : String) (f : α → α)
    (l : List (String × α)) (h : other ≠ key) :
    lookupDoc other (updateEntry key f l) = lookupDoc other l := by
  induction l with
  | nil => simp [updateEntry]
  | cons head rest ih =>
    obtain ⟨k, w⟩ := head
    by_cases hk : k = key
    · subst hk
      have hko : ¬ (k = other) := fun hh => h hh.symm
      simp [updateEntry, lookupDoc, hko, ih]
    · by_cases ho : k = other
      · subst ho
        have hne : ¬ (k = key) := hk
        simp [updateEntry, lookupDoc, hne]
      · simp [updateEntry, lookupDoc, hk, ho, ih]

-- ==========================================================
-- Claim theorems
-- ==========================================================

/-- C1: the spec and the repository documentation (ARCHITECTURE.md section
C.2, PROGRESS.md item Worker-Side JWT Verification) state that the gateway
validates the bearer token claims before fetching and rejects a token that
does not have exactly three dot-separated segments with 401 and body
Invalid token format.  The shipped worker.js contradicts that
documentation: with a url parameter and an Authorization header carrying
the two-segment token a.b it performs no claims validation at all and
proceeds straight to the outbound fetch. -/
theorem workerGate_no_token_claims_check :
    workerGate { method := "GET", urlParam := some "https://example.com",
                 authHeader := some "Bearer a.b" }
      = .fetchTarget "https://example.com" "Bearer a.b" ∧
    (splitOnChar '.' "a.b").length = 2 := by
  exact ⟨by decide, by decide⟩

/-- C4: canAccessProxy is true exactly on APPROVED profiles whose role is
SUPER_ADMIN, PARENT or CHILD, and the two pending roles never pass
regardless of status. -/
theorem canAccessProxy_characterization (p : UserProfile) :
    (canAccessProxy p = true ↔
      (p.approvalStatus = .APPROVED ∧
        (p.role = .SUPER_ADMIN ∨ p.role = .PARENT ∨ p.role = .CHILD))) ∧
    ((p.role = .PENDING_PARENT ∨ p.role = .PENDING_CHILD) →
      canAccessProxy p = false) := by
  obtain ⟨u, e, d, role, fl, pe, status, pu, fi, cu, ab, aa, rr, ca, ua⟩ := p
  cases role <;> cases status <;> simp [canAccessProxy]

/-- C4 witness: a profile with status APPROVED but role PENDING_PARENT is
rejected by canAccessProxy. -/
theorem canAccessProxy_characterization_witness :
    canAccessProxy { uid := "u1", email := "u1@x", role := .PENDING_PARENT,
                     filterLevel := .MODERATE, approvalStatus := .APPROVED,
                     createdAt := 0 } = false :=
  (canAccessProxy_characterization
    { uid := "u1", email := "u1@x", role := .PENDING_PARENT,
      filterLevel := .MODERATE, approvalStatus := .APPROVED,
      createdAt := 0 }).2 (Or.inl rfl)

/-- C6: the gateway checks short-circuit in a fixed order: OPTIONS gets a
bodiless CORS response; then a missing url parameter gets 400 with the
exact body; then a missing Authorization header gets 401 with the exact
body; only then does the handler proceed to fetch the target. -/
theorem workerGate_short_circuit_order (req : WorkerRequest) :
    (req.method = "OPTIONS" → workerGate req = .respond corsOnlyResponse) ∧
    (req.method ≠ "OPTIONS" → req.urlParam = none →
      workerGate req = .respond missingUrlResponse) ∧
    (∀ t, req.method ≠ "OPTIONS" → req.urlParam = some t → t ≠ "" →
      req.authHeader = none → workerGate req = .respond missingAuthResponse) ∧
    (∀ t a, req.method ≠ "OPTIONS" → req.urlParam = some t → t ≠ "" →
      req.authHeader = some a → a ≠ "" →
      workerGate req = .fetchTarget t a) := by
  refine ⟨?_, ?_, ?_, ?_⟩
  · intro h
    simp [workerGate, h]
  · intro h hu
    simp [workerGate, h, hu, strOptFalsy]
  · intro t h hu ht ha
    simp [workerGate, h, hu, ht, ha, strOptFalsy]
  · intro t a h hu ht ha hane
    simp [workerGate, h, hu, ht, ha, hane, strOptFalsy]

/-- C6 witness: the four clauses exercised on concrete requests. -/
theorem workerGate_short_circuit_order_witness :
    workerGate { method := "OPTIONS", urlParam := none, authHeader := none }
      = .respond corsOnlyResponse ∧
    workerGate { method := "GET", urlParam := none, authHeader := none }
      = .respond missingUrlResponse ∧
    workerGate { method := "GET", urlParam := some "https://example.com",
                 authHeader := none } = .respond missingAuthResponse ∧
    workerGate { method := "GET", urlParam := some "https://example.com",
                 authHeader := some "Bearer tok" }
      = .fetchTarget "https://example.com" "Bearer tok" := by
  refine ⟨?_, ?_, ?_, ?_⟩
  · exact (workerGate_short_circuit_order
      { method := "OPTIONS", urlParam := none, authHeader := none }).1 rfl
  · exact (workerGate_short_circuit_order
      { method := "GET", urlParam := none, authHeader := none }).2.1
      (by decide) rfl
  · exact (workerGate_short_circuit_order
      { method := "GET", urlParam := some "https://example.com",
        authHeader := none }).2.2.1 "https://example.com"
      (by decide) rfl (by decide) rfl
  · exact (workerGate_short_circuit_order
      { method := "GET", urlParam := some "https://example.com",
        authHeader := some "Bearer tok" }).2.2.2 "https://example.com" "Bearer tok"
      (by decide) rfl (by decide) rfl (by decide)

/-- C7: the attribute rewriter is registered for the four element and
attribute pairs, leaves values starting with http or with two slashes
unchanged, otherwise substitutes the resolution of the value against the
target URL, leaves the value unchanged when resolution throws, and behaves
as claimed on the three concrete examples. -/
theorem attributeRewriter_characterization :
    rewriterRegistrations =
      [("a", "href"), ("img", "src"), ("link", "href"), ("script", "src")] ∧
    (∀ value base : String,
      (strStartsWith value "http" = true ∨ strStartsWith value "//" = true) →
      rewriteAttributeValue value base = value) ∧
    (∀ value base u : String, strStartsWith value "http" = false →
      strStartsWith value "//" = false → resolveURL value base = some u →
      rewriteAttributeValue value base = u) ∧
    (∀ value base : String, resolveURL value base = none →
      rewriteAttributeValue value base = value) ∧
    rewriteAttributeValue "./image.png" "https://example.com/blog/"
      = "https://example.com/blog/image.png" ∧
    rewriteAttributeValue "https://cdn.example.com/x.js" "https://example.com/blog/"
      = "https://cdn.example.com/x.js" ∧
    rewriteAttributeValue "//other.cdn/y.js" "https://example.com/blog/"
      = "//other.cdn/y.js" := by
  refine ⟨rfl, ?_, ?_, ?_, by decide, by decide, by decide⟩
  · intro value base h
    rcases h with h | h <;> simp [rewriteAttributeValue, h]
  · intro value base u h1 h2 h3
    simp [rewriteAttributeValue, h1, h2, h3]
  · intro value base h
    by_cases h1 : strStartsWith value "http"
    · simp [rewriteAttributeValue, h1]
    · by_cases h2 : strStartsWith value "//" <;>
        simp [rewriteAttributeValue, h1, h2, h]

/-- C7 witness: the non-absolute value style.css against the example base
resolves and is substituted. -/
theorem attributeRewriter_characterization_witness :
    rewriteAttributeValue "style.css" "https://example.com/blog/"
      = "https://example.com/blog/style.css" :=
  (attributeRewriter_characterization).2.2.1 "style.css"
    "https://example.com/blog/" "https://example.com/blog/style.css"
    (by decide) (by decide) (by decide)

/-- C8: the spec, the repository documentation and the frontend caller
(proxyService.ts sends an X-Filter-Level header to the worker) require the
Access-Control-Allow-Headers response header to list Content-Type,
Authorization and X-Filter-Level.  The shipped corsHeaders object, which
every gateway response carries, lists only Content-Type and Authorization:
the X-Filter-Level entry is absent, so a browser preflight for the header
the frontend actually sends would fail. -/
theorem corsHeaders_missing_filter_level :
    lookupDoc "Access-Control-Allow-Headers" corsHeaders
      = some "Content-Type, Authorization" ∧
    lookupDoc "Access-Control-Allow-Headers" corsHeaders
      ≠ some "Content-Type, Authorization, X-Filter-Level" ∧
    lookupDoc "Access-Control-Allow-Origin" corsHeaders = some "*" ∧
    lookupDoc "Access-Control-Allow-Methods" corsHeaders
      = some "GET, HEAD, POST, OPTIONS" ∧
    workerGate { method := "OPTIONS", urlParam := none, authHeader := none }
      = .respond corsOnlyResponse := by
  refine ⟨by decide, by decide, by decide, by decide, by decide⟩

/-- C2: approveParentRequest fails exactly when the parent record is
absent; on success the transactionally produced state holds a new Family
owned by the parent, with no children and the settings filter level copied
from the parent profile, and the parent profile updated to role PARENT,
status APPROVED, with familyId pointing at that Family and the reviewer
metadata set.  The transaction model returns either an error, leaving the
caller with the unchanged prior store, or the state with both writes
applied, so the Family and the familyId reference appear together or not
at all. -/
theorem approveParentRequest_transactional (adminUid parentUid : String)
    (now : Nat) (st : Firestore) :
    (getUserProfile parentUid st = none →
      approveParentRequest adminUid parentUid now st = .error "Parent user not found") ∧
    (∀ e, approveParentRequest adminUid parentUid now st = .error e →
      getUserProfile parentUid st = none ∧ e = "Parent user not found") ∧
    (∀ st₁, approveParentRequest adminUid parentUid now st = .ok st₁ →
      ∃ parentData, getUserProfile parentUid st = some parentData ∧
        getFamily (freshFamilyDocId st) st₁ = some
          { id := freshFamilyDocId st, parentUid := parentUid,
            childrenUids := [], createdAt := now,
            settings := some { filterLevel := parentData.filterLevel } } ∧
        ∃ p₁, getUserProfile parentUid st₁ = some p₁ ∧
          p₁.role = .PARENT ∧ p₁.approvalStatus = .APPROVED ∧
          p₁.familyId = some (freshFamilyDocId st) ∧
          p₁.approvedBy = some adminUid ∧ p₁.approvedAt = some now) := by
  refine ⟨?_, ?_, ?_⟩
  · intro h
    simp [getUserProfile] at h
    simp [approveParentRequest, h]
  · intro e he
    cases hp : lookupDoc parentUid st.users with
    | none =>
      simp [approveParentRequest, hp] at he
      exact ⟨by simp [getUserProfile, hp], he.symm⟩
    | some p =>
      simp [approveParentRequest, hp] at he
  · intro st₁ h
    cases hp : lookupDoc parentUid st.users with
    | none => simp [approveParentRequest, hp] at h
    | some parentData =>
      simp [approveParentRequest, hp] at h
      refine ⟨parentData, by simp [getUserProfile, hp], ?_, ?_⟩
      · rw [← h]
        simp [getFamily, lookupDoc_setDocIn_self]
      · refine ⟨approveParentUpd adminUid (freshFamilyDocId st) now parentData,
          ?_, rfl, rfl, rfl, rfl, rfl⟩
        rw [← h]
        simp [getUserProfile, lookupDoc_updateEntry_self, hp, approveParentUpd]

/-- A pending parent profile used by the C2 witness. -/
def c2Parent : UserProfile :=
  { uid := "parent1", email := "p1@x", role := .PENDING_PARENT,
    filterLevel := .STRICT, approvalStatus := .PENDING, createdAt := 5 }

/-- The prior store of the C2 witness. -/
def c2Store : Firestore :=
  { users := [("parent1", c2Parent)], families := [], invites := [], nextDocId := 0 }

/-- The store after the C2 witness approval. -/
def c2StoreApproved : Firestore :=
  { users := [("parent1", approveParentUpd "admin1" "fam0" 100 c2Parent)],
    families := [("fam0",
      { id := "fam0", parentUid := "parent1", childrenUids := [],
        createdAt := 100, settings := some { filterLevel := .STRICT } })],
    invites := [], nextDocId := 1 }

/-- C2 witness: approving the concrete pending parent yields the Family
and the updated profile together. -/
theorem approveParentRequest_transactional_witness :
    ∃ parentData, getUserProfile "parent1" c2Store = some parentData ∧
      getFamily (freshFamilyDocId c2Store) c2StoreApproved = some
        { id := freshFamilyDocId c2Store, parentUid := "parent1",
          childrenUids := [], createdAt := 100,
          settings := some { filterLevel := parentData.filterLevel } } ∧
      ∃ p₁, getUserProfile "parent1" c2StoreApproved = some p₁ ∧
        p₁.role = .PARENT ∧ p₁.approvalStatus = .APPROVED ∧
        p₁.familyId = some (freshFamilyDocId c2Store) ∧
        p₁.approvedBy = some "admin1" ∧ p₁.approvedAt = some 100 :=
  (approveParentRequest_transactional "admin1" "parent1" 100 c2Store).2.2
    c2StoreApproved (by
      simp [approveParentRequest, c2Store, c2StoreApproved, c2Parent,
        lookupDoc, setDocIn, updateEntry, freshFamilyDocId]
      decide)

/-- Characterization of a successful approveChildRequest run in terms of
the four documents the transaction reads before writing. -/
theorem approveChildRequest_ok_env
    (parentUid childUid fid : String) (now : Nat) (st : Firestore)
    (p₀ c₀ : UserProfile) (f₀ : Family)
    (hp : lookupDoc parentUid st.users = some p₀)
    (hfid : p₀.familyId = some fid) (hfid0 : fid ≠ "")
    (hc : lookupDoc childUid st.users = some c₀)
    (hf : lookupDoc fid st.families = some f₀) :
    approveChildRequest parentUid childUid now st = .ok
      { st with
        users :=
          if childUid ∈ p₀.childrenUids.getD [] then
            updateEntry childUid (approveChildUpd parentUid fid now) st.users
          else
            updateEntry parentUid
              (setParentChildrenUpd (p₀.childrenUids.getD [] ++ [childUid]) now)
              (updateEntry childUid (approveChildUpd parentUid fid now) st.users),
        families :=
          if childUid ∈ f₀.childrenUids then st.families
          else
            updateEntry fid (setFamilyChildrenUpd (f₀.childrenUids ++ [childUid]))
              st.families } := by
  have hfal : strOptFalsy (some fid) = false := by
    simp [strOptFalsy, hfid0]
  simp [approveChildRequest, hp, hc, hfid, hfal, hf]

/-- C3: under the documents read by a first successful approveChildRequest,
with the child not yet present in either children list, the first run
succeeds, a second run with the same arguments succeeds as well (the model
is a pure function of its arguments, so the second outcome is
deterministic), and after the second run the child occurs exactly once in
the parent profile children list and exactly once in the family children
list: the set-add is idempotent and no duplicates appear. -/
theorem approveChildRequest_idempotent_set_add
    (parentUid childUid fid : String) (now : Nat) (st : Firestore)
    (p₀ c₀ : UserProfile) (f₀ : Family)
    (hp : lookupDoc parentUid st.users = some p₀)
    (hfid : p₀.familyId = some fid) (hfid0 : fid ≠ "")
    (hc : lookupDoc childUid st.users = some c₀)
    (hf : lookupDoc fid st.families = some f₀)
    (hpc : childUid ∉ p₀.childrenUids.getD [])
    (hfc : childUid ∉ f₀.childrenUids) :
    ∃ st₁ st₂,
      approveChildRequest parentUid childUid now st = .ok st₁ ∧
      approveChildRequest parentUid childUid now st₁ = .ok st₂ ∧
      (∀ q, lookupDoc parentUid st₂.users = some q →
        (q.childrenUids.getD []).count childUid = 1) ∧
      (∀ g, lookupDoc fid st₂.families = some g →
        g.childrenUids.count childUid = 1) := by
  have hcount0P : (p₀.childrenUids.getD []).count childUid = 0 :=
    List.count_eq_zero.mpr hpc
  have hcount0F : f₀.childrenUids.count childUid = 0 :=
    List.count_eq_zero.mpr hfc
  have h₁ := approveChildRequest_ok_env parentUid childUid fid now st
    p₀ c₀ f₀ hp hfid hfid0 hc hf
  rw [if_neg hpc, if_neg hfc] at h₁
  have hfA : lookupDoc fid
      (updateEntry fid (setFamilyChildrenUpd (f₀.childrenUids ++ [childUid]))
        st.families)
      = some (setFamilyChildrenUpd (f₀.childrenUids ++ [childUid]) f₀) := by
    rw [lookupDoc_updateEntry_self, hf]
    rfl
  by_cases hcp : childUid = parentUid
  · subst hcp
    have hpA : lookupDoc childUid
        (updateEntry childUid
          (setParentChildrenUpd (p₀.childrenUids.getD [] ++ [childUid]) now)
          (updateEntry childUid (approveChildUpd childUid fid now) st.users))
        = some (setParentChildrenUpd (p₀.childrenUids.getD [] ++ [childUid]) now
            (approveChildUpd childUid fid now p₀)) := by
      rw [lookupDoc_updateEntry_self, lookupDoc_updateEntry_self, hp]
      rfl
    have h₂ := approveChildRequest_ok_env childUid childUid fid now
      { st with
        users := updateEntry childUid
          (setParentChildrenUpd (p₀.childrenUids.getD [] ++ [childUid]) now)
          (updateEntry childUid (approveChildUpd childUid fid now) st.users),
        families := updateEntry fid
          (setFamilyChildrenUpd (f₀.childrenUids ++ [childUid])) st.families }
      (setParentChildrenUpd (p₀.childrenUids.getD [] ++ [childUid]) now
        (approveChildUpd childUid fid now p₀))
      (setParentChildrenUpd (p₀.childrenUids.getD [] ++ [childUid]) now
        (approveChildUpd childUid fid now p₀))
      (setFamilyChildrenUpd (f₀.childrenUids ++ [childUid]) f₀)
      hpA rfl hfid0 hpA hfA
    rw [if_pos (by simp [setParentChildrenUpd]),
        if_pos (by simp [setFamilyChildrenUpd])] at h₂
    refine ⟨_, _, h₁, h₂, ?_, ?_⟩
    · intro q hq
      have hq' : lookupDoc childUid
          (updateEntry childUid (approveChildUpd childUid fid now)
            (updateEntry childUid
              (setParentChildrenUpd (p₀.childrenUids.getD [] ++ [childUid]) now)
              (updateEntry childUid (approveChildUpd childUid fid now) st.users)))
          = some q := hq
      rw [lookupDoc_updateEntry_self, hpA] at hq'
      have hkeep := Option.some.inj hq'
      rw [← hkeep]
      simp [approveChildUpd, setParentChildrenUpd, List.count_append,
        hcount0P]
    · intro g hg
      have hg' : lookupDoc fid
          (updateEntry fid (setFamilyChildrenUpd (f₀.childrenUids ++ [childUid]))
            st.families) = some g := hg
      rw [hfA] at hg'
      rw [← Option.some.inj hg']
      simp [setFamilyChildrenUpd, List.count_append, hcount0F]
  · have hPne : parentUid ≠ childUid := fun hh => hcp hh.symm
    have hpA : lookupDoc parentUid
        (updateEntry parentUid
          (setParentChildrenUpd (p₀.childrenUids.getD [] ++ [childUid]) now)
          (updateEntry childUid (approveChildUpd parentUid fid now) st.users))
        = some (setParentChildrenUpd (p₀.childrenUids.getD [] ++ [childUid]) now p₀) := by
      rw [lookupDoc_updateEntry_self, lookupDoc_updateEntry_ne _ _ _ _ hPne, hp]
      rfl
    have hcA : lookupDoc childUid
        (updateEntry parentUid
          (setParentChildrenUpd (p₀.childrenUids.getD [] ++ [childUid]) now)
          (updateEntry childUid (approveChildUpd parentUid fid now) st.users))
        = some (approveChildUpd parentUid fid now c₀) := by
      rw [lookupDoc_updateEntry_ne _ _ _ _ hcp, lookupDoc_updateEntry_self, hc]
      rfl
    have h₂ := approveChildRequest_ok_env parentUid childUid fid now
      { st with
        users := updateEntry parentUid
          (setParentChildrenUpd (p₀.childrenUids.getD [] ++ [childUid]) now)
          (updateEntry childUid (approveChildUpd parentUid fid now) st.users),
        families := updateEntry fid
          (setFamilyChildrenUpd (f₀.childrenUids ++ [childUid])) st.families }
      (setParentChildrenUpd (p₀.childrenUids.getD [] ++ [childUid]) now p₀)
      (approveChildUpd parentUid fid now c₀)
      (setFamilyChildrenUpd (f₀.childrenUids ++ [childUid]) f₀)
      hpA hfid hfid0 hcA hfA
    rw [if_pos (by simp [setParentChildrenUpd]),
        if_pos (by simp [setFamilyChildrenUpd])] at h₂
    refine ⟨_, _, h₁, h₂, ?_, ?_⟩
    · intro q hq
      have hq' : lookupDoc parentUid
          (updateEntry childUid (approveChildUpd parentUid fid now)
            (updateEntry parentUid
              (setParentChildrenUpd (p₀.childrenUids.getD [] ++ [childUid]) now)
              (updateEntry childUid (approveChildUpd parentUid fid now) st.users)))
          = some q := hq
      rw [lookupDoc_updateEntry_ne _ _ _ _ hPne, hpA] at hq'
      rw [← Option.some.inj hq']
      simp [setParentChildrenUpd, List.count_append, hcount0P]
    · intro g hg
      have hg' : lookupDoc fid
          (updateEntry fid (setFamilyChildrenUpd (f₀.childrenUids ++ [childUid]))
            st.families) = some g := hg
      rw [hfA] at hg'
      rw [← Option.some.inj hg']
      simp [setFamilyChildrenUpd, List.count_append, hcount0F]

/-- The parent profile of the C3 witness. -/
def c3Parent : UserProfile :=
  { uid := "par1", email := "p@x", role := .PARENT,
    filterLevel := .MODERATE, approvalStatus := .APPROVED,
    familyId := some "famA", createdAt := 0 }

/-- The pending child profile of the C3 witness. -/
def c3Child : UserProfile :=
  { uid := "kid1", email := "k@x", role := .PENDING_CHILD,
    filterLevel := .MODERATE, approvalStatus := .PENDING,
    parentEmail := some "p@x", createdAt := 0 }

/-- The family of the C3 witness. -/
def c3Family : Family :=
  { id := "famA", parentUid := "par1", childrenUids := [],
    createdAt := 0, settings := some { filterLevel := .MODERATE } }

/-- The store of the C3 witness. -/
def c3Store : Firestore :=
  { users := [("par1", c3Parent), ("kid1", c3Child)],
    families := [("famA", c3Family)], invites := [], nextDocId := 0 }

/-- C3 witness: approving the concrete pending child twice keeps the
child exactly once in both children lists. -/
theorem approveChildRequest_idempotent_set_add_witness :
    ∃ st₁ st₂,
      approveChildRequest "par1" "kid1" 77 c3Store = .ok st₁ ∧
      approveChildRequest "par1" "kid1" 77 st₁ = .ok st₂ ∧
      (∀ q, lookupDoc "par1" st₂.users = some q →
        (q.childrenUids.getD []).count "kid1" = 1) ∧
      (∀ g, lookupDoc "famA" st₂.families = some g →
        g.childrenUids.count "kid1" = 1) :=
  approveChildRequest_idempotent_set_add "par1" "kid1" "famA" 77 c3Store
    c3Parent c3Child c3Family (by decide) (by decide) (by decide) (by decide)
    (by decide) (by decide) (by decide)

/-- C5: validateFamilyInviteCode returns none when no stored invite
matches, none when the first matching invite carries a truthy expiresAt
strictly below the current time, and otherwise resolves the Family of the
invite; generation stores a 48 hour expiry, so for a freshly generated
code a lookup one hour later resolves the Family and a lookup 49 hours
later returns none.  Every invite the program stores has a positive
expiresAt, which the truthiness hypothesis of the expiry clause records. -/
theorem validateFamilyInviteCode_resolution (code : String) (now : Nat)
    (st : Firestore) :
    (st.invites.filter (fun i => i.code == code) = [] →
      validateFamilyInviteCode code now st = none) ∧
    (∀ inv rest, st.invites.filter (fun i => i.code == code) = inv :: rest →
      inv.expiresAt ≠ 0 → inv.expiresAt < now →
      validateFamilyInviteCode code now st = none) ∧
    (∀ inv rest, st.invites.filter (fun i => i.code == code) = inv :: rest →
      ¬ (inv.expiresAt ≠ 0 ∧ now > inv.expiresAt) →
      validateFamilyInviteCode code now st = getFamily inv.familyId st) ∧
    (∀ familyId fam T st₀,
      (∀ i ∈ st₀.invites, i.code ≠ code) →
      getFamily familyId st₀ = some fam →
      validateFamilyInviteCode code (T + 3600000)
        (generateFamilyInviteCode familyId code T st₀).2 = some fam ∧
      validateFamilyInviteCode code (T + 176400000)
        (generateFamilyInviteCode familyId code T st₀).2 = none) := by
  refine ⟨?_, ?_, ?_, ?_⟩
  · intro h
    simp [validateFamilyInviteCode, h]
  · intro inv rest h h0 hlt
    have hcond : inv.expiresAt ≠ 0 ∧ now > inv.expiresAt := ⟨h0, hlt⟩
    simp [validateFamilyInviteCode, h, hcond]
  · intro inv rest h hcond
    simp [validateFamilyInviteCode, h, hcond]
  · intro familyId fam T st₀ hfresh hfam
    have hfilter :
        ((generateFamilyInviteCode familyId code T st₀).2).invites.filter
            (fun i => i.code == code) =
          [{ code := code, familyId := familyId, createdAt := T,
             expiresAt := T + inviteLifetimeMillis }] := by
      have hnil : st₀.invites.filter (fun i => i.code == code) = [] := by
        rw [List.filter_eq_nil_iff]
        intro i hi
        simpa using hfresh i hi
      simp [generateFamilyInviteCode, List.filter_append, hnil]
    have hfam2 : getFamily familyId (generateFamilyInviteCode familyId code T st₀).2
        = some fam := by
      simpa [generateFamilyInviteCode, getFamily] using hfam
    have h48 : inviteLifetimeMillis = 172800000 := rfl
    constructor
    · simp [validateFamilyInviteCode, hfilter, hfam2]
      omega
    · have hexp : (T + inviteLifetimeMillis ≠ 0) ∧
          T + 176400000 > T + inviteLifetimeMillis := by omega
      simp [validateFamilyInviteCode, hfilter, hexp]

/-- C5 witness: a concrete store with one family; the code generated at
time 1000 resolves that family 1 hour later and is gone 49 hours later. -/
theorem validateFamilyInviteCode_resolution_witness :
    validateFamilyInviteCode "ABC123" (1000 + 3600000)
      (generateFamilyInviteCode "famZ" "ABC123" 1000
        { users := [], invites := [],
          families := [("famZ",
            { id := "famZ", parentUid := "p1", childrenUids := [],
              createdAt := 0, settings := none })],
          nextDocId := 0 }).2
      = some { id := "famZ", parentUid := "p1", childrenUids := [],
               createdAt := 0, settings := none } ∧
    validateFamilyInviteCode "ABC123" (1000 + 176400000)
      (generateFamilyInviteCode "famZ" "ABC123" 1000
        { users := [], invites := [],
          families := [("famZ",
            { id := "famZ", parentUid := "p1", childrenUids := [],
              createdAt := 0, settings := none })],
          nextDocId := 0 }).2 = none :=
  (validateFamilyInviteCode_resolution "ABC123" 0
    { users := [], invites := [],
      families := [("famZ",
        { id := "famZ", parentUid := "p1", childrenUids := [],
          createdAt := 0, settings := none })],
      nextDocId := 0 }).2.2.2 "famZ"
    { id := "famZ", parentUid := "p1", childrenUids := [],
      createdAt := 0, settings := none } 1000
    { users := [], invites := [],
      families := [("famZ",
        { id := "famZ", parentUid := "p1", childrenUids := [],
          createdAt := 0, settings := none })],
      nextDocId := 0 }
    (by simp) (by decide)

/-- C9: after a successful removeChildFromFamily on an existing family
whose id is non-empty (Firestore document ids are never empty), the child
profile carries the empty-string sentinels in familyId and parentUid
rather than absent fields, userBelongsToFamily with the removed family is
false, and the profile no longer satisfies the familyId query predicate of
getFamilyChildren. -/
theorem removeChildFromFamily_unlinks (familyId childUid : String) (now : Nat)
    (st st₁ : Firestore)
    (h : removeChildFromFamily familyId childUid now st = .ok st₁)
    (hfid : familyId ≠ "") :
    ∃ c₁, getUserProfile childUid st₁ = some c₁ ∧
      c₁.familyId = some "" ∧ c₁.parentUid = some "" ∧
      userBelongsToFamily childUid familyId st₁ = false ∧
      c₁ ∉ getFamilyChildren familyId st₁ := by
  cases hf : getFamily familyId st with
  | none => simp [removeChildFromFamily, hf] at h
  | some family =>
    cases hc : lookupDoc childUid st.users with
    | none => simp [removeChildFromFamily, hf, updateDocE, hc] at h
    | some c₀ =>
      cases hpp : lookupDoc family.parentUid
          (updateEntry childUid (unlinkChildUpd now) st.users) with
      | none => simp [removeChildFromFamily, hf, updateDocE, hc, hpp] at h
      | some p₀ =>
        simp [removeChildFromFamily, hf, updateDocE, hc, hpp] at h
        have husers : st₁.users =
            updateEntry family.parentUid (parentArrayRemoveUpd childUid now)
              (updateEntry childUid (unlinkChildUpd now) st.users) := by
          rw [← h]
        have hc₁ : ∃ c₁, lookupDoc childUid st₁.users = some c₁ ∧
            c₁.familyId = some "" ∧ c₁.parentUid = some "" := by
          by_cases hpar : childUid = family.parentUid
          · refine ⟨parentArrayRemoveUpd childUid now (unlinkChildUpd now c₀),
              ?_, rfl, rfl⟩
            rw [husers, ← hpar, lookupDoc_updateEntry_self,
              lookupDoc_updateEntry_self, hc]
            rfl
          · refine ⟨unlinkChildUpd now c₀, ?_, rfl, rfl⟩
            rw [husers, lookupDoc_updateEntry_ne _ _ _ _ hpar,
              lookupDoc_updateEntry_self, hc]
            rfl
        obtain ⟨c₁, hlk, hcfid, hcpar⟩ := hc₁
        have hbeq : (c₁.familyId == some familyId) = false := by
          rw [hcfid]
          exact beq_eq_false_iff_ne.mpr
            (fun hh => hfid ((Option.some.inj hh).symm))
        refine ⟨c₁, by simpa [getUserProfile] using hlk, hcfid, hcpar, ?_, ?_⟩
        · simp [userBelongsToFamily, getUserProfile, hlk, hbeq]
        · intro hmem
          rw [getFamilyChildren] at hmem
          obtain ⟨kv, hkvmem, hkv⟩ := List.mem_map.mp hmem
          have hpred : (kv.2.familyId == some familyId
              && kv.2.role == UserRole.CHILD) = true :=
            (List.mem_filter.mp hkvmem).2
          have h1 : kv.2.familyId = some familyId := by
            have hsplit := hpred
            simp only [Bool.and_eq_true, beq_iff_eq] at hsplit
            exact hsplit.1
          rw [hkv, hcfid] at h1
          exact hfid ((Option.some.inj h1).symm)

/-- The store the C9 witness starts from: one family with one linked
child. -/
def c9Store : Firestore :=
  { users :=
      [("par1", { uid := "par1", email := "p@x", role := .PARENT,
                  filterLevel := .MODERATE, approvalStatus := .APPROVED,
                  familyId := some "famA", childrenUids := some ["kid1"],
                  createdAt := 0 }),
       ("kid1", { uid := "kid1", email := "k@x", role := .CHILD,
                  filterLevel := .MODERATE, approvalStatus := .APPROVED,
                  familyId := some "famA", parentUid := some "par1",
                  createdAt := 0 })],
    families := [("famA",
      { id := "famA", parentUid := "par1", childrenUids := ["kid1"],
        createdAt := 0, settings := none })],
    invites := [], nextDocId := 0 }

/-- The store after the C9 witness removal. -/
def c9StoreAfter : Firestore :=
  { users :=
      [("par1", { uid := "par1", email := "p@x", role := .PARENT,
                  filterLevel := .MODERATE, approvalStatus := .APPROVED,
                  familyId := some "famA", childrenUids := some [],
                  createdAt := 0, updatedAt := some 50 }),
       ("kid1", { uid := "kid1", email := "k@x", role := .CHILD,
                  filterLevel := .MODERATE, approvalStatus := .APPROVED,
                  familyId := some "", parentUid := some "",
                  createdAt := 0, updatedAt := some 50 })],
    families := [("famA",
      { id := "famA", parentUid := "par1", childrenUids := [],
        createdAt := 0, settings := none })],
    invites := [], nextDocId := 0 }

/-- C9 witness: removing the concrete linked child leaves the
empty-string sentinels and breaks family membership. -/
theorem removeChildFromFamily_unlinks_witness :
    ∃ c₁, getUserProfile "kid1" c9StoreAfter = some c₁ ∧
      c₁.familyId = some "" ∧ c₁.parentUid = some "" ∧
      userBelongsToFamily "kid1" "famA" c9StoreAfter = false ∧
      c₁ ∉ getFamilyChildren "famA" c9StoreAfter :=
  removeChildFromFamily_unlinks "famA" "kid1" 50 c9Store c9StoreAfter
    (by
      simp [removeChildFromFamily, c9Store, c9StoreAfter, getFamily,
        lookupDoc, updateDocE, updateEntry, unlinkChildUpd,
        parentArrayRemoveUpd, familyArrayRemoveUpd])
    (by decide)

/-- C10: getFamilyFilterLevel returns the stored settings filter level
when the family exists and has settings, and MODERATE in every other
case, so it is total on the model. -/
theorem getFamilyFilterLevel_total_default (familyId : String) (st : Firestore) :
    (getFamily familyId st = none →
      getFamilyFilterLevel familyId st = .MODERATE) ∧
    (∀ fam, getFamily familyId st = some fam → fam.settings = none →
      getFamilyFilterLevel familyId st = .MODERATE) ∧
    (∀ fam s, getFamily familyId st = some fam → fam.settings = some s →
      getFamilyFilterLevel familyId st = s.filterLevel) := by
  refine ⟨?_, ?_, ?_⟩
  · intro h
    simp [getFamilyFilterLevel, h]
  · intro fam h hs
    simp [getFamilyFilterLevel, h, hs]
  · intro fam s h hs
    simp [getFamilyFilterLevel, h, hs]

/-- C10 witness: a store holding one family without settings and lacking
a second family yields MODERATE for both, and a family with STRICT
settings yields STRICT. -/
theorem getFamilyFilterLevel_total_default_witness :
    getFamilyFilterLevel "famA"
      { users := [], invites := [], nextDocId := 0,
        families := [("famA",
          { id := "famA", parentUid := "p1", childrenUids := [],
            createdAt := 0, settings := none })] } = .MODERATE ∧
    getFamilyFilterLevel "famB"
      { users := [], invites := [], nextDocId := 0, families := [] } = .MODERATE ∧
    getFamilyFilterLevel "famC"
      { users := [], invites := [], nextDocId := 0,
        families := [("famC",
          { id := "famC", parentUid := "p1", childrenUids := [],
            createdAt := 0,
            settings := some { filterLevel := .STRICT } })] } = .STRICT := by
  refine ⟨?_, ?_, ?_⟩
  · exact (getFamilyFilterLevel_total_default "famA" _).2.1
      { id := "famA", parentUid := "p1", childrenUids := [],
        createdAt := 0, settings := none } (by decide) rfl
  · exact (getFamilyFilterLevel_total_default "famB" _).1 rfl
  · exact (getFamilyFilterLevel_total_default "famC" _).2.2
      { id := "famC", parentUid := "p1", childrenUids := [],
        createdAt := 0, settings := some { filterLevel := .STRICT } }
      { filterLevel := .STRICT } (by decide) rfl

end OpenFamilySafe
